import Mathlib

/-!
Shallow embedding of the oauthenticator repository's CILogon and GitHub
authenticators (src/oauthenticator/cilogon.py, src/oauthenticator/github.py).

Python dictionaries holding string claims are modelled as association lists;
`dict.get` is `uget` (first matching key). Python truthiness of an optional
string is `truthyStr` (absent or empty is falsy). Raised exceptions —
`tornado.web.HTTPError` as well as unhandled `KeyError` / `IndexError` /
`AttributeError` — are modelled by the `PyFault` error type of an `Except`
result. HTTP traffic is modelled by passing the response-producing function
`fetch` as an argument.
-/

/-- Python truthiness of an optional string value: `None` and `""` are falsy. -/
def truthyStr : Option String → Bool
  | none => false
  | some s => !(s == "")

/-- Characters of a list strictly before the first `'@'` (all of them when no
`'@'` occurs), as in Python `s.split("@", 1)[0]`. -/
def takeUntilAt : List Char → List Char
  | [] => []
  | c :: rest => if c == '@' then [] else c :: takeUntilAt rest

/-- Python `s.split("@", 1)[0]`: the substring before the first `'@'`,
or all of `s` when it contains no `'@'`. -/
def beforeFirstAt (s : String) : String :=
  String.mk (takeUntilAt s.data)

/-- Characters strictly after the first `'@'`, or `none` when no `'@'` occurs. -/
def dropThroughAt : List Char → Option (List Char)
  | [] => none
  | c :: rest => if c == '@' then some rest else dropThroughAt rest

/-- Python `s.split("@", 1)[1]`: the substring after the first `'@'`;
`none` models the `IndexError` case where `s` contains no `'@'`. -/
def afterFirstAt (s : String) : Option String :=
  (dropThroughAt s.data).map String.mk

/-- Python `str.split(sep)` on a character list: splits at every occurrence
of `sep`, keeping empty pieces (so `"".split(":") = [""]`). -/
def splitChars (sep : Char) : List Char → List (List Char)
  | [] => [[]]
  | c :: rest =>
    let r := splitChars sep rest
    if c == sep then
      [] :: r
    else
      match r with
      | [] => [[c]]
      | h :: t => (c :: h) :: t

/-- Python `s.split(sep)` for a one-character separator. -/
def pySplit (sep : Char) (s : String) : List String :=
  (splitChars sep s.data).map String.mk

/-- Lexicographic order on character lists via code points. -/
def charListLe : List Char → List Char → Bool
  | [], _ => true
  | _ :: _, [] => false
  | a :: as, b :: bs => if a == b then charListLe as bs else a.toNat ≤ b.toNat

/-- Lexicographic order on strings, as Python `sorted` uses on `str`. -/
def strLeB (a b : String) : Bool :=
  charListLe a.data b.data

/-- Insert a string into a lexicographically sorted list. -/
def insortStr (x : String) : List String → List String
  | [] => [x]
  | y :: ys => if strLeB x y then x :: y :: ys else y :: insortStr x ys

/-- Python `sorted` on a list of strings (insertion sort). -/
def sortStrings : List String → List String
  | [] => []
  | x :: xs => insortStr x (sortStrings xs)

/-- Characters allowed in a URI scheme by `urllib.parse`: ASCII letters,
digits, `'+'`, `'-'`, `'.'`. -/
def scheme_char (c : Char) : Bool :=
  c.isAlpha || c.isDigit || c == '+' || c == '-' || c == '.'

/-- Split a character list at the first `':'`; `none` when there is none. -/
def splitAtColon : List Char → Option (List Char × List Char)
  | [] => none
  | c :: rest =>
    if c == ':' then some ([], rest)
    else (splitAtColon rest).map (fun p => (c :: p.1, p.2))

/-- The `scheme` attribute of Python `urllib.parse.urlparse(url)`: the
lower-cased text before the first `':'` when it is non-empty, starts with an
ASCII letter and consists of scheme characters; otherwise `""`. -/
def urlparse_scheme (url : String) : String :=
  match splitAtColon url.data with
  | none => ""
  | some (pre, _) =>
    match pre with
    | [] => ""
    | c :: cs =>
      if c.isAlpha && (c :: cs).all scheme_char then
        String.mk ((c :: cs).map Char.toLower)
      else ""

/-- The `userinfo` response: a Python dict from claim name to string value. -/
abbrev UserInfo := List (String × String)

/-- Python `user_info.get(key)`: value of the first matching key. -/
def uget (ui : UserInfo) (key : String) : Option String :=
  (ui.find? (fun p => p.1 == key)).map Prod.snd

/-- The `username_derivation` dict of an `allowed_idps` entry; `action`,
`domain` and `prefix` are optional keys of the Python dict. -/
structure UsernameDerivation where
  username_claim : String
  action : Option String
  domain : Option String
  prefix_value : Option String
deriving DecidableEq

/-- One value of the `allowed_idps` dict: `username_derivation` is required
by the schema, `allowed_domains` is an optional key. -/
structure IdpEntry where
  username_derivation : UsernameDerivation
  allowed_domains : Option (List String)
deriving DecidableEq

/-- The configurable state of `CILogonOAuthenticator` that the embedded
methods read: `username_claim`, `additional_username_claims`, `allowed_idps`
(a dict, as an association list) and `allowed_users` (a set, as a list). -/
structure CILogonConfig where
  username_claim : String
  additional_username_claims : List String
  allowed_idps : List (String × IdpEntry)
  allowed_users : List String
deriving DecidableEq

/-- The part of `auth_model` that `check_allowed` reads: the `admin` flag and
`auth_model["auth_state"][self.user_auth_state_key]`. -/
structure AuthModel where
  admin : Bool
  user_info : UserInfo
deriving DecidableEq

/-- Exceptions raised by the embedded Python code: `web.HTTPError` (a
deliberate decision outcome) and the unhandled faults `KeyError`,
`IndexError`, `AttributeError`. -/
inductive PyFault
  | httpError (code : Nat) (message : String)
  | keyError (key : String)
  | indexError
  | attributeError
deriving DecidableEq

/-- Log records emitted by `user_info_to_username`: the `log.error` call
reports the attempted claim list and the sorted available claim names. -/
inductive LogEntry
  | noUsernameClaim (attempted : List String) (availableKeys : List String)
deriving DecidableEq

/-- Python `selected_idp in self.allowed_idps.keys()` together with the
subscript `self.allowed_idps[selected_idp]`: the entry of the dict. -/
def idpLookup (idps : List (String × IdpEntry)) (key : String) : Option IdpEntry :=
  (idps.find? (fun p => p.1 == key)).map Prod.snd

/-- Python truthiness of the optional `allowed_domains` list. -/
def truthyDomains : Option (List String) → Bool
  | none => false
  | some l => !l.isEmpty

/-- The list behind an optional `allowed_domains` value. -/
def domainsList : Option (List String) → List String
  | none => []
  | some l => l

/-- Embedding of `CILogonOAuthenticator._validate_scope` (cilogon.py lines
102-115): append `openid` when missing, and append `org.cilogon.userinfo`
when `allowed_idps` is truthy and it is missing. -/
def _validate_scope (allowed_idps_nonempty : Bool) (proposal : List String) : List String :=
  let scopes := if proposal.contains "openid" then proposal else proposal ++ ["openid"]
  if allowed_idps_nonempty && !(scopes.contains "org.cilogon.userinfo") then
    scopes ++ ["org.cilogon.userinfo"]
  else scopes

/-- Modelled from the spec: the JSON schema `schemas/cilogon-schema.yaml` read
by `_validate_allowed_idps` is not under src/. Per spec section 4.2 it requires
`username_claim` (always present in the record type here), restricts `action`
to its two known values, and requires `domain` when `action=strip_idp_domain`
and `prefix` when `action=prefix`. -/
def schema_valid (d : UsernameDerivation) : Bool :=
  (d.action == none || d.action == some "strip_idp_domain" || d.action == some "prefix")
  && (!(d.action == some "strip_idp_domain") || d.domain.isSome)
  && (!(d.action == some "prefix") || d.prefix_value.isSome)

/-- The accepted entity-id schemes of `_validate_allowed_idps`
(cilogon.py line 193). -/
def accepted_entity_id_scheme : List String := ["urn", "https", "http"]

/-- The per-entry loop of `_validate_allowed_idps` (cilogon.py lines 183-204):
for each entry validate `username_derivation` against the schema, then check
the key's URI scheme; returns the first raised error message, if any. -/
def validate_idps_loop : List (String × IdpEntry) → Option String
  | [] => none
  | (entity_id, entry) :: rest =>
    if !schema_valid entry.username_derivation then
      some ("username_derivation of " ++ entity_id ++ " does not validate against the schema")
    else if !(accepted_entity_id_scheme.contains (urlparse_scheme entity_id)) then
      some "The keys of allowed_idps must be CILogon permitted EntityIDs."
    else validate_idps_loop rest

/-- Embedding of `CILogonOAuthenticator._validate_allowed_idps` (cilogon.py
lines 179-206): returns the proposed table unchanged when every entry
validates, and raises (an error value) otherwise. -/
def _validate_allowed_idps (idps : List (String × IdpEntry)) :
    Except String (List (String × IdpEntry)) :=
  match validate_idps_loop idps with
  | some msg => .error msg
  | none => .ok idps

/-- Embedding of `CILogonOAuthenticator._get_final_username_claim_list`
(cilogon.py lines 252-279). `user_info["idp"]` raises `KeyError` when the
claim is absent and `allowed_idps` is truthy. -/
def _get_final_username_claim_list (cfg : CILogonConfig) (ui : UserInfo) :
    Except PyFault (List String) :=
  let username_claims := cfg.username_claim :: cfg.additional_username_claims
  if !cfg.allowed_idps.isEmpty then
    match uget ui "idp" with
    | none => .error (.keyError "idp")
    | some selected_idp =>
      match idpLookup cfg.allowed_idps selected_idp with
      | some entry => .ok [entry.username_derivation.username_claim]
      | none => .ok username_claims
  else .ok username_claims

/-- Embedding of `CILogonOAuthenticator._get_username_from_claim_list`
(cilogon.py lines 281-288): scan the claims, stopping at the first truthy
value; with no truthy value the result is the last claim's lookup
(possibly `none`, Python `None`). -/
def _get_username_from_claim_list (ui : UserInfo) : List String → Option String
  | [] => none
  | [claim] => uget ui claim
  | claim :: rest =>
    let username := uget ui claim
    if truthyStr username then username else _get_username_from_claim_list ui rest

/-- Embedding of the action branch of `user_info_to_username` (cilogon.py
lines 308-314): `strip_idp_domain` keeps the part before the first `'@'`,
`prefix` prepends `prefix + ":"` (raising `KeyError` when the `prefix` key is
absent), any other action leaves the username unchanged. -/
def apply_username_derivation (d : UsernameDerivation) (username : String) :
    Except PyFault String :=
  if d.action == some "strip_idp_domain" then
    .ok (beforeFirstAt username)
  else if d.action == some "prefix" then
    match d.prefix_value with
    | none => .error (.keyError "prefix")
    | some p => .ok (p ++ ":" ++ username)
  else .ok username

/-- Embedding of `CILogonOAuthenticator.user_info_to_username` (cilogon.py
lines 290-316), paired with the list of emitted log records. -/
def user_info_to_username (cfg : CILogonConfig) (ui : UserInfo) :
    Except PyFault String × List LogEntry :=
  match _get_final_username_claim_list cfg ui with
  | .error f => (.error f, [])
  | .ok username_claims =>
    match _get_username_from_claim_list ui username_claims with
    | none =>
      (.error (.httpError 500 "Failed to get username from CILogon"),
       [.noUsernameClaim username_claims (sortStrings (ui.map Prod.fst))])
    | some v =>
      if v == "" then
        (.error (.httpError 500 "Failed to get username from CILogon"),
         [.noUsernameClaim username_claims (sortStrings (ui.map Prod.fst))])
      else
        if !cfg.allowed_idps.isEmpty then
          match uget ui "idp" with
          | none => (.error (.keyError "idp"), [])
          | some selected_idp =>
            match idpLookup cfg.allowed_idps selected_idp with
            | some entry =>
              (apply_username_derivation entry.username_derivation v, [])
            | none => (.ok v, [])
        else (.ok v, [])

/-- Embedding of `CILogonOAuthenticator.check_allowed` (cilogon.py lines
318-380). `Except.ok true` is an allow, `Except.ok false` a deny,
`Except.error (PyFault.httpError ...)` a raised forbidden response, and the
remaining `PyFault` values unhandled Python exceptions. -/
def check_allowed (cfg : CILogonConfig) (username : String)
    (auth_model : Option AuthModel) : Except PyFault Bool :=
  match auth_model with
  | none => .ok true
  | some am =>
    if am.admin then .ok true
    else if !cfg.allowed_idps.isEmpty then
      let user_info := am.user_info
      match uget user_info "idp" with
      | none => .error (.keyError "idp")
      | some selected_idp =>
        match idpLookup cfg.allowed_idps selected_idp with
        | none =>
          .error (.httpError 403
            "Trying to login using an identity provider that was not allowed")
        | some entry =>
          let allowed_domains := entry.allowed_domains
          if !cfg.allowed_users.isEmpty || truthyDomains allowed_domains then
            if cfg.allowed_users.contains username then .ok true
            else if truthyDomains allowed_domains then
              match _get_final_username_claim_list cfg user_info with
              | .error f => .error f
              | .ok username_claims =>
                match _get_username_from_claim_list user_info username_claims with
                | none => .error .attributeError
                | some username_with_domain =>
                  match afterFirstAt username_with_domain with
                  | none => .error .indexError
                  | some user_domain =>
                    if (domainsList allowed_domains).contains user_domain then .ok true
                    else
                      .error (.httpError 403
                        "Trying to login using a domain that was not allowed")
            else .ok false
          else .ok true
    else if !cfg.allowed_users.isEmpty then
      if cfg.allowed_users.contains username then .ok true else .ok false
    else .ok true

/-- A result of `check_allowed` that is one of the three decision outcomes of
the spec: allow, deny/forbidden (including a raised `HTTPError`), or internal
error — everything except an unhandled Python exception. -/
def isDecisionOutcome : Except PyFault Bool → Bool
  | .ok _ => true
  | .error (.httpError _ _) => true
  | .error _ => false

/-- Stated from the spec's words for comparison with
`_get_username_from_claim_list`: the value of the first candidate claim that
is present and non-empty, if any. -/
def firstTruthyClaim (ui : UserInfo) : List String → Option String
  | [] => none
  | claim :: rest =>
    match uget ui claim with
    | some v => if v == "" then firstTruthyClaim ui rest else some v
    | none => firstTruthyClaim ui rest

/-- One parsed entry of a `Link` response header, as produced by
`requests.utils.parse_header_links`: an optional `rel` attribute and the URL. -/
structure LinkEntry where
  rel : Option String
  url : String
deriving DecidableEq

/-- A response seen by `_paginated_fetch`: the decoded JSON-list body and the
parsed `Link` header (`none` models an absent or falsy header). -/
structure PageResponse (α : Type) where
  body : List α
  linkHeader : Option (List LinkEntry)

/-- The loop of github.py lines 238-243: the first link whose `rel` attribute
equals `"next"`, if any. -/
def findNextUrl : List LinkEntry → Option String
  | [] => none
  | l :: rest => if l.rel == some "next" then some l.url else findNextUrl rest

/-- The pagination decision of github.py lines 229-250: continue with the
`rel="next"` URL when the `Link` header is present and holds one, else stop. -/
def nextPageUrl {α : Type} (resp : PageResponse α) : Option String :=
  match resp.linkHeader with
  | none => none
  | some links => findNextUrl links

/-- Embedding of `GitHubOAuthenticator._paginated_fetch` (github.py lines
207-251): accumulate page bodies, following `rel="next"` links. Returns the
accumulated content together with the number of GET requests issued. The
`fuel` argument bounds the recursion of the embedding only; the theorems
instantiate it above the page count, where the value is fuel-independent. -/
def _paginated_fetch {α : Type} (fetch : String → PageResponse α) :
    Nat → String → List α × Nat
  | 0, _ => ([], 0)
  | Nat.succ fuel, url =>
    let resp := fetch url
    match nextPageUrl resp with
    | none => (resp.body, 1)
    | some next =>
      let r := _paginated_fetch fetch fuel next
      (resp.body ++ r.1, r.2 + 1)

/-- A finite chain of pages under a fixed `fetch`: from `url`, every page
except the last carries a `rel="next"` link to the next page, and the last
page has no `Link` header or no `rel="next"` link; `pages` collects the page
bodies in order. -/
inductive PageChain {α : Type} (fetch : String → PageResponse α) :
    String → List (List α) → Prop
  | last (url : String) :
      nextPageUrl (fetch url) = none →
      PageChain fetch url [(fetch url).body]
  | step (url next : String) (rest : List (List α)) :
      nextPageUrl (fetch url) = some next →
      PageChain fetch next rest →
      PageChain fetch url ((fetch url).body :: rest)

/-- The decoded body of a membership response as the non-204 branch of
`_check_membership_allowed_organizations` (github.py lines 291-295) sees it:
`invalid` models a body on which `json.loads` raises `ValueError` (caught),
`dict` a JSON object with an optional `message` value, and `nonDict` a body
that parses as JSON but not as an object (list, string, number, null), on
which `resp_json.get` raises an uncaught `AttributeError`. -/
inductive JsonBody
  | invalid
  | dict (message : Option String)
  | nonDict
deriving DecidableEq

/-- A response seen by `_check_membership_allowed_organizations`: the status
code and the decoded body. -/
structure GHResponse where
  code : Nat
  body : JsonBody
deriving DecidableEq

/-- Unhandled exceptions of the embedded GitHub membership check: the
`ValueError` of unpacking an entry with more than one colon (github.py line
270) and the `AttributeError` of `resp_json.get` on a non-dict JSON body
(github.py line 293, where the surrounding `try` catches only
`ValueError`). -/
inductive GHFault
  | valueError
  | attributeError
deriving DecidableEq

/-- The URL construction of `_check_membership_allowed_organizations`
(github.py lines 267-276): an `org:team` entry targets the team-membership
endpoint, a bare `org` entry the org-membership endpoint; `none` models the
`ValueError` of unpacking an entry with more than one `':'`. -/
def membership_api_url (github_api org_team username : String) : Option String :=
  if (pySplit ':' org_team).length ≥ 2 then
    match pySplit ':' org_team with
    | [org, team] =>
      some (github_api ++ "/orgs/" ++ org ++ "/teams/" ++ team ++ "/members/" ++ username)
    | _ => none
  else
    some (github_api ++ "/orgs/" ++ org_team ++ "/members/" ++ username)

/-- The response handling of github.py lines 287-299: status 204 is a
positive membership result; any other status decodes the body to build the
log message — `json.loads` failures are caught as `ValueError` and a JSON
dict yields its `message` — and returns `false`, except that a body parsing
as non-dict JSON makes `resp_json.get` raise an uncaught `AttributeError`. -/
def membership_response_result (resp : GHResponse) : Except GHFault Bool :=
  if resp.code == 204 then .ok true
  else
    match resp.body with
    | .invalid => .ok false
    | .dict _ => .ok false
    | .nonDict => .error .attributeError

/-- Embedding of `GitHubOAuthenticator._check_membership_allowed_organizations`
(github.py lines 253-299): build the org or org:team membership URL, GET it,
and interpret the response via `membership_response_result`. -/
def _check_membership_allowed_organizations (github_api : String)
    (fetch : String → GHResponse) (org_team username : String) :
    Except GHFault Bool :=
  match membership_api_url github_api org_team username with
  | none => .error .valueError
  | some url => membership_response_result (fetch url)

/-- The `allowed_organizations` loop of `GitHubOAuthenticator.check_allowed`
(github.py lines 145-149): stop at the first entry whose membership check
returns true. Returns the decision together with the number of membership
checks issued. -/
def scan_orgs (member : String → Bool) : List String → Bool × Nat
  | [] => (false, 0)
  | org_team :: rest =>
    if member org_team then (true, 1)
    else
      let r := scan_orgs member rest
      (r.1, r.2 + 1)

/-- Embedding of `GitHubOAuthenticator.check_allowed` (github.py lines
134-154): the base decision of `OAuthenticator.check_allowed` is the
`base_allowed` input, the membership verifier is the `member` input; returns
the decision and the number of membership checks issued. -/
def github_check_allowed (base_allowed : Bool) (orgs : List String)
    (member : String → Bool) : Bool × Nat :=
  if base_allowed then (true, 0)
  else scan_orgs member orgs

instance {ε α : Type} [DecidableEq ε] [DecidableEq α] : DecidableEq (Except ε α) :=
  fun a b =>
    match a, b with
    | .error e, .error f =>
      if h : e = f then isTrue (by rw [h]) else isFalse (by intro hc; cases hc; exact h rfl)
    | .error _, .ok _ => isFalse (by intro hc; cases hc)
    | .ok _, .error _ => isFalse (by intro hc; cases hc)
    | .ok x, .ok y =>
      if h : x = y then isTrue (by rw [h]) else isFalse (by intro hc; cases hc; exact h rfl)

theorem idpLookup_isEmpty {t : List (String × IdpEntry)} {k : String} {e : IdpEntry}
    (h : idpLookup t k = some e) : t.isEmpty = false := by
  cases t with
  | nil => simp [idpLookup] at h
  | cons _ _ => rfl

theorem contains_isEmpty {l : List String} {a : String}
    (h : l.contains a = true) : l.isEmpty = false := by
  cases l with
  | nil => simp at h
  | cons _ _ => rfl

theorem truthyStr_false_cases {o : Option String} (h : truthyStr o = false) :
    o = none ∨ o = some "" := by
  cases o with
  | none => exact Or.inl rfl
  | some s =>
    right
    simp [truthyStr] at h
    rw [h]

theorem takeUntilAt_idem (l : List Char) :
    takeUntilAt (takeUntilAt l) = takeUntilAt l := by
  induction l with
  | nil => rfl
  | cons c rest ih =>
    by_cases hc : c == '@'
    · simp [takeUntilAt, hc]
    · simp only [takeUntilAt, hc]
      simp only [Bool.false_eq_true, if_false, takeUntilAt, hc, ih]

theorem beforeFirstAt_idem (s : String) :
    beforeFirstAt (beforeFirstAt s) = beforeFirstAt s := by
  simp [beforeFirstAt, takeUntilAt_idem]

theorem resolve_all_untruthy (ui : UserInfo) (claims : List String)
    (h : ∀ c ∈ claims, truthyStr (uget ui c) = false) :
    truthyStr (_get_username_from_claim_list ui claims) = false := by
  induction claims with
  | nil => rfl
  | cons c rest ih =>
    cases rest with
    | nil =>
      simpa [_get_username_from_claim_list] using h c (by simp)
    | cons r rs =>
      have hc : truthyStr (uget ui c) = false := h c (by simp)
      simp only [_get_username_from_claim_list, hc, Bool.false_eq_true, if_false]
      exact ih (fun x hx => h x (by simp [hx]))

theorem firstTruthy_resolves (ui : UserInfo) (claims : List String) (v : String)
    (h : firstTruthyClaim ui claims = some v) :
    _get_username_from_claim_list ui claims = some v := by
  induction claims with
  | nil => simp [firstTruthyClaim] at h
  | cons c rest ih =>
    cases rest with
    | nil =>
      cases hc : uget ui c with
      | none => simp [firstTruthyClaim, hc] at h
      | some w =>
        by_cases hw : w = ""
        · subst hw; simp [firstTruthyClaim, hc] at h
        · have hwb : (w == "") = false := by simpa using hw
          simp only [firstTruthyClaim, hc, hwb, Bool.false_eq_true, if_false] at h
          simpa [_get_username_from_claim_list, hc] using h
    | cons r rs =>
      cases hc : uget ui c with
      | none =>
        simp only [firstTruthyClaim, hc] at h
        simp only [_get_username_from_claim_list, hc, truthyStr, Bool.false_eq_true,
          if_false]
        exact ih h
      | some w =>
        by_cases hw : w = ""
        · subst hw
          simp only [firstTruthyClaim, hc, beq_self_eq_true, if_true] at h
          have ht : truthyStr (uget ui c) = false := by simp [truthyStr, hc]
          simp only [_get_username_from_claim_list, ht, Bool.false_eq_true, if_false]
          exact ih h
        · have hwb : (w == "") = false := by simpa using hw
          simp only [firstTruthyClaim, hc, hwb, Bool.false_eq_true, if_false] at h
          have ht : truthyStr (uget ui c) = true := by simp [truthyStr, hc, hwb]
          simp only [_get_username_from_claim_list, ht, if_true]
          rw [hc, h]


/-- C10: for every proposed scope list, the validated scope configuration
always contains `openid` (appended when missing); whenever `allowed_idps` is
non-empty it also contains `org.cilogon.userinfo`; and every scope already
proposed is preserved. -/
theorem cilogon_scope_invariant (b : Bool) (proposal : List String) :
    "openid" ∈ _validate_scope b proposal
  ∧ (b = true → "org.cilogon.userinfo" ∈ _validate_scope b proposal)
  ∧ ∀ s ∈ proposal, s ∈ _validate_scope b proposal := by
  have hexp : ∃ t1, _validate_scope b proposal = proposal ++ t1
      ∧ "openid" ∈ proposal ++ t1
      ∧ (b = true → "org.cilogon.userinfo" ∈ proposal ++ t1) := by
    by_cases h1 : "openid" ∈ proposal
    · by_cases h2 : "org.cilogon.userinfo" ∈ proposal
      · exact ⟨[], by simp [_validate_scope, h1, h2], by simp [h1],
          fun _ => by simp [h2]⟩
      · cases b with
        | false =>
          exact ⟨[], by simp [_validate_scope, h1, h2], by simp [h1], by simp⟩
        | true =>
          exact ⟨["org.cilogon.userinfo"], by simp [_validate_scope, h1, h2],
            by simp [h1], fun _ => by simp⟩
    · by_cases h2 : "org.cilogon.userinfo" ∈ proposal
      · exact ⟨["openid"], by simp [_validate_scope, h1, h2], by simp,
          fun _ => by simp [h2]⟩
      · cases b with
        | false =>
          exact ⟨["openid"], by simp [_validate_scope, h1, h2], by simp, by simp⟩
        | true =>
          exact ⟨["openid", "org.cilogon.userinfo"],
            by simp [_validate_scope, h1, h2], by simp, fun _ => by simp⟩
  obtain ⟨t1, heq, hop, hui⟩ := hexp
  refine ⟨heq ▸ hop, fun hb => heq ▸ hui hb, fun s hs => ?_⟩
  rw [heq]
  exact List.mem_append_left _ hs

/-- C10 witness at a concrete proposal: allowed_idps non-empty, proposed
scopes `["email"]`. -/
theorem cilogon_scope_invariant_witness :
    "openid" ∈ _validate_scope true ["email"]
  ∧ "org.cilogon.userinfo" ∈ _validate_scope true ["email"]
  ∧ "email" ∈ _validate_scope true ["email"] :=
  ⟨(cilogon_scope_invariant true ["email"]).1,
   (cilogon_scope_invariant true ["email"]).2.1 rfl,
   (cilogon_scope_invariant true ["email"]).2.2 "email" (by simp)⟩

/-- C2: with a configured rule table whose keys include the selected idp,
the candidate claim list is exactly the entry's `username_claim`; with no
table, or a selected idp that is not a key, it is the default
`username_claim` followed by `additional_username_claims`; and the resolved
username is the value of the first candidate claim that is present and
non-empty. -/
theorem cilogon_username_resolution (cfg : CILogonConfig) (ui : UserInfo)
    (idp : String) (e : IdpEntry) (claims : List String) (v : String) :
    (uget ui "idp" = some idp → idpLookup cfg.allowed_idps idp = some e →
      _get_final_username_claim_list cfg ui
        = .ok [e.username_derivation.username_claim])
  ∧ (cfg.allowed_idps = [] →
      _get_final_username_claim_list cfg ui
        = .ok (cfg.username_claim :: cfg.additional_username_claims))
  ∧ (uget ui "idp" = some idp → idpLookup cfg.allowed_idps idp = none →
      _get_final_username_claim_list cfg ui
        = .ok (cfg.username_claim :: cfg.additional_username_claims))
  ∧ (firstTruthyClaim ui claims = some v →
      _get_username_from_claim_list ui claims = some v) := by
  refine ⟨?_, ?_, ?_, firstTruthy_resolves ui claims v⟩
  · intro hidp hent
    have hne : cfg.allowed_idps.isEmpty = false := idpLookup_isEmpty hent
    simp [_get_final_username_claim_list, hne, hidp, hent]
  · intro hnil
    simp [_get_final_username_claim_list, hnil]
  · intro hidp hent
    by_cases hl : cfg.allowed_idps = []
    · simp [_get_final_username_claim_list, hl]
    · have hne : cfg.allowed_idps.isEmpty = false := by
        cases hcase : cfg.allowed_idps with
        | nil => exact absurd hcase hl
        | cons _ _ => rfl
      simp [_get_final_username_claim_list, hne, hidp, hent]

/-- Concrete username-derivation rule selecting the `uid` claim with no
action, used by witnesses. -/
def udW : UsernameDerivation :=
  { username_claim := "uid", action := none, domain := none, prefix_value := none }

/-- Concrete `allowed_idps` entry with no `allowed_domains`, used by
witnesses. -/
def entW : IdpEntry := { username_derivation := udW, allowed_domains := none }

/-- Concrete configuration with a one-entry rule table, used by witnesses. -/
def cfgW1 : CILogonConfig :=
  { username_claim := "eppn", additional_username_claims := ["email"],
    allowed_idps := [("https://idp.example/shibboleth", entW)],
    allowed_users := [] }

/-- Concrete configuration with no rule table, used by witnesses. -/
def cfgW0 : CILogonConfig :=
  { username_claim := "eppn", additional_username_claims := ["email"],
    allowed_idps := [], allowed_users := [] }

/-- Concrete userinfo response naming an idp of the table, used by
witnesses. -/
def uiW : UserInfo := [("idp", "https://idp.example/shibboleth"), ("uid", "u1")]

/-- Concrete userinfo response with an empty first claim, used by
witnesses. -/
def uiW2 : UserInfo := [("eppn", ""), ("email", "x@uni.edu")]

/-- C2 witness: a one-entry table with the selected idp as key uses the
entry's claim; an empty table uses the default list; the first present
non-empty claim resolves. -/
theorem cilogon_username_resolution_witness :
    _get_final_username_claim_list cfgW1 uiW = .ok ["uid"]
  ∧ _get_final_username_claim_list cfgW0 uiW = .ok ["eppn", "email"]
  ∧ _get_username_from_claim_list uiW2 ["eppn", "email"] = some "x@uni.edu" :=
  ⟨(cilogon_username_resolution cfgW1 uiW "https://idp.example/shibboleth" entW
      [] "").1 (by decide) (by decide),
   (cilogon_username_resolution cfgW0 uiW "" entW [] "").2.1 rfl,
   (cilogon_username_resolution cfgW0 uiW2 "" entW ["eppn", "email"]
      "x@uni.edu").2.2.2 (by decide)⟩

/-- C7: when no candidate claim has a present, non-empty value,
`user_info_to_username` raises the 500 internal error, logs the attempted
claim list and the sorted available claim names (names only, never values),
and never returns a username at all. -/
theorem cilogon_username_not_found (cfg : CILogonConfig) (ui : UserInfo)
    (claims : List String)
    (hclaims : _get_final_username_claim_list cfg ui = .ok claims)
    (hnone : ∀ c ∈ claims, truthyStr (uget ui c) = false) :
    user_info_to_username cfg ui
      = (.error (.httpError 500 "Failed to get username from CILogon"),
         [.noUsernameClaim claims (sortStrings (ui.map Prod.fst))])
  ∧ ∀ u, (user_info_to_username cfg ui).1 ≠ Except.ok u := by
  have hres := resolve_all_untruthy ui claims hnone
  have hcases := truthyStr_false_cases hres
  have hmain : user_info_to_username cfg ui
      = (.error (.httpError 500 "Failed to get username from CILogon"),
         [.noUsernameClaim claims (sortStrings (ui.map Prod.fst))]) := by
    rcases hcases with h | h
    · simp [user_info_to_username, hclaims, h]
    · simp [user_info_to_username, hclaims, h]
  refine ⟨hmain, fun u => ?_⟩
  rw [hmain]
  simp

/-- C7 witness: with no rule table the attempted claims are eppn and email;
a userinfo response carrying only `sub` fails with the 500 error and the
diagnostic log. -/
theorem cilogon_username_not_found_witness :
    user_info_to_username cfgW0 [("sub", "x")]
      = (.error (.httpError 500 "Failed to get username from CILogon"),
         [.noUsernameClaim ["eppn", "email"] ["sub"]]) :=
  (cilogon_username_not_found cfgW0 [("sub", "x")] ["eppn", "email"]
    (by decide) (by decide)).1

/-- C9: with a matched rule, the final username is the derivation action
applied to the resolved value: `strip_idp_domain` keeps the part before the
first at-sign (idempotent and independent of the configured `domain` value),
`prefix` yields `prefix:value`, and no action returns the value unchanged. -/
theorem cilogon_username_transformation (cfg : CILogonConfig) (ui : UserInfo)
    (idp : String) (e : IdpEntry) (claims : List String) (v : String)
    (hidp : uget ui "idp" = some idp)
    (hent : idpLookup cfg.allowed_idps idp = some e)
    (hclaims : _get_final_username_claim_list cfg ui = .ok claims)
    (hres : _get_username_from_claim_list ui claims = some v)
    (hv : v ≠ "") :
    (user_info_to_username cfg ui).1
        = apply_username_derivation e.username_derivation v
  ∧ (e.username_derivation.action = some "strip_idp_domain" →
      apply_username_derivation e.username_derivation v = .ok (beforeFirstAt v))
  ∧ beforeFirstAt (beforeFirstAt v) = beforeFirstAt v
  ∧ (∀ (uc : String) (act dom1 dom2 pv : Option String) (w : String),
      apply_username_derivation ⟨uc, act, dom1, pv⟩ w
        = apply_username_derivation ⟨uc, act, dom2, pv⟩ w)
  ∧ (∀ p, e.username_derivation.action = some "prefix" →
      e.username_derivation.prefix_value = some p →
      apply_username_derivation e.username_derivation v = .ok (p ++ ":" ++ v))
  ∧ (e.username_derivation.action = none →
      apply_username_derivation e.username_derivation v = .ok v) := by
  have hne : cfg.allowed_idps.isEmpty = false := idpLookup_isEmpty hent
  have hvb : (v == "") = false := by simpa using hv
  refine ⟨?_, ?_, beforeFirstAt_idem v, ?_, ?_, ?_⟩
  · simp [user_info_to_username, hclaims, hres, hvb, hne, hidp, hent]
  · intro h
    simp [apply_username_derivation, h]
  · intro uc act dom1 dom2 pv w
    simp [apply_username_derivation]
  · intro p h1 h2
    simp [apply_username_derivation, h1, h2]
  · intro h
    simp [apply_username_derivation, h]

/-- Concrete derivation rule with the strip_idp_domain action, used by
witnesses. -/
def udS : UsernameDerivation :=
  { username_claim := "email", action := some "strip_idp_domain",
    domain := some "uni.edu", prefix_value := none }

/-- Concrete `allowed_idps` entry with the strip_idp_domain action, used by
witnesses. -/
def entS : IdpEntry := { username_derivation := udS, allowed_domains := none }

/-- Concrete configuration whose single entry strips the idp domain, used by
witnesses. -/
def cfgS : CILogonConfig :=
  { username_claim := "eppn", additional_username_claims := ["email"],
    allowed_idps := [("https://idp.example/shibboleth", entS)],
    allowed_users := [] }

/-- Concrete userinfo response whose email claim carries a domain, used by
witnesses. -/
def uiS : UserInfo :=
  [("idp", "https://idp.example/shibboleth"), ("email", "x@uni.edu")]

/-- C9 witness: the strip_idp_domain rule turns `x@uni.edu` into `x`. -/
theorem cilogon_username_transformation_witness :
    (user_info_to_username cfgS uiS).1 = Except.ok "x"
  ∧ apply_username_derivation entS.username_derivation "x@uni.edu"
      = Except.ok (beforeFirstAt "x@uni.edu") := by
  have h := cilogon_username_transformation cfgS uiS
    "https://idp.example/shibboleth" entS ["email"] "x@uni.edu"
    (by decide) (by decide) (by decide) (by decide) (by decide)
  refine ⟨?_, h.2.1 (by decide)⟩
  rw [h.1, h.2.1 (by decide)]
  decide

/-- C1: with the selected idp a key of the table and a static allow-list or
per-idp allowed_domains configured, a username on the static allow-list is
allowed without the domain check; otherwise, with allowed_domains configured,
the login is allowed exactly when the domain of the recomputed
pre-transformation username is in allowed_domains and rejected with the
403 domain error otherwise; with only the static allow-list configured, an
unlisted user is denied. -/
theorem cilogon_allowlist_precedence (cfg : CILogonConfig) (username : String)
    (am : AuthModel) (idp : String) (e : IdpEntry)
    (hadmin : am.admin = false)
    (hidp : uget am.user_info "idp" = some idp)
    (hent : idpLookup cfg.allowed_idps idp = some e)
    (hconf : cfg.allowed_users ≠ [] ∨ truthyDomains e.allowed_domains = true) :
    (username ∈ cfg.allowed_users →
        check_allowed cfg username (some am) = .ok true)
  ∧ (username ∉ cfg.allowed_users →
      truthyDomains e.allowed_domains = true →
      ∀ claims uwd dom,
        _get_final_username_claim_list cfg am.user_info = .ok claims →
        _get_username_from_claim_list am.user_info claims = some uwd →
        afterFirstAt uwd = some dom →
        (dom ∈ domainsList e.allowed_domains →
            check_allowed cfg username (some am) = .ok true)
        ∧ (dom ∉ domainsList e.allowed_domains →
            check_allowed cfg username (some am)
              = .error (.httpError 403
                  "Trying to login using a domain that was not allowed")))
  ∧ (username ∉ cfg.allowed_users →
      truthyDomains e.allowed_domains = false →
      check_allowed cfg username (some am) = .ok false) := by
  have hne : cfg.allowed_idps.isEmpty = false := idpLookup_isEmpty hent
  refine ⟨?_, ?_, ?_⟩
  · intro hu
    have hue : cfg.allowed_users.isEmpty = false := by
      cases hl : cfg.allowed_users with
      | nil => rw [hl] at hu; cases hu
      | cons _ _ => rfl
    simp [check_allowed, hadmin, hne, hidp, hent, hue, hu]
  · intro hu hd claims uwd dom hclaims hres hafter
    constructor
    · intro hdom
      simp [check_allowed, hadmin, hne, hidp, hent, hd, hu, hclaims, hres,
        hafter, hdom]
    · intro hdom
      simp [check_allowed, hadmin, hne, hidp, hent, hd, hu, hclaims, hres,
        hafter, hdom]
  · intro hu hd
    have hue : cfg.allowed_users.isEmpty = false := by
      rcases hconf with h | h
      · cases hl : cfg.allowed_users with
        | nil => exact absurd hl h
        | cons _ _ => rfl
      · rw [h] at hd; cases hd
    simp [check_allowed, hadmin, hne, hidp, hent, hue, hu, hd]

/-- Concrete derivation rule selecting the email claim with no action, used
by witnesses. -/
def udE : UsernameDerivation :=
  { username_claim := "email", action := none, domain := none,
    prefix_value := none }

/-- Concrete entry with allowed_domains uni.edu, used by witnesses. -/
def entD : IdpEntry :=
  { username_derivation := udE, allowed_domains := some ["uni.edu"] }

/-- Concrete entry without allowed_domains, used by witnesses. -/
def entND : IdpEntry := { username_derivation := udE, allowed_domains := none }

/-- Concrete configuration with a static allow-list and a domain-restricted
entry, used by witnesses. -/
def cfgA : CILogonConfig :=
  { username_claim := "eppn", additional_username_claims := ["email"],
    allowed_idps := [("https://idp.example/shibboleth", entD)],
    allowed_users := ["alice"] }

/-- Concrete configuration with a static allow-list only, used by
witnesses. -/
def cfgA0 : CILogonConfig :=
  { username_claim := "eppn", additional_username_claims := ["email"],
    allowed_idps := [("https://idp.example/shibboleth", entND)],
    allowed_users := ["alice"] }

/-- Concrete auth model for the uni.edu user, used by witnesses. -/
def amS : AuthModel := { admin := false, user_info := uiS }

/-- Concrete auth model for a user of an unlisted domain, used by
witnesses. -/
def amOther : AuthModel :=
  { admin := false,
    user_info := [("idp", "https://idp.example/shibboleth"),
                  ("email", "x@other.org")] }

/-- C1 witness: alice is allowed via the static allow-list; bob is allowed
via the uni.edu domain, denied with the 403 domain error from other.org, and
denied without error when only the static allow-list is configured. -/
theorem cilogon_allowlist_precedence_witness :
    check_allowed cfgA "alice" (some amS) = .ok true
  ∧ check_allowed cfgA "bob" (some amS) = .ok true
  ∧ check_allowed cfgA "bob" (some amOther)
      = .error (.httpError 403
          "Trying to login using a domain that was not allowed")
  ∧ check_allowed cfgA0 "bob" (some amS) = .ok false := by
  refine ⟨?_, ?_, ?_, ?_⟩
  · exact (cilogon_allowlist_precedence cfgA "alice" amS
      "https://idp.example/shibboleth" entD rfl (by decide) (by decide)
      (Or.inl (by decide))).1 (by decide)
  · exact ((cilogon_allowlist_precedence cfgA "bob" amS
      "https://idp.example/shibboleth" entD rfl (by decide) (by decide)
      (Or.inl (by decide))).2.1 (by decide) (by decide)
      ["email"] "x@uni.edu" "uni.edu" (by decide) (by decide) (by decide)).1
      (by decide)
  · exact ((cilogon_allowlist_precedence cfgA "bob" amOther
      "https://idp.example/shibboleth" entD rfl (by decide) (by decide)
      (Or.inl (by decide))).2.1 (by decide) (by decide)
      ["email"] "x@other.org" "other.org" (by decide) (by decide) (by decide)).2
      (by decide)
  · exact (cilogon_allowlist_precedence cfgA0 "bob" amS
      "https://idp.example/shibboleth" entND rfl (by decide) (by decide)
      (Or.inl (by decide))).2.2 (by decide) (by decide)

/-- Helper: a response whose body is a JSON dict or fails to parse, or whose
status is 204, is handled without fault: membership exactly on 204. -/
theorem membership_response_ok (resp : GHResponse)
    (hbody : resp.code ≠ 204 → resp.body ≠ JsonBody.nonDict) :
    membership_response_result resp = .ok (resp.code == 204) := by
  by_cases hc : resp.code = 204
  · simp [membership_response_result, hc]
  · have hcb : (resp.code == 204) = false := by simpa using hc
    cases hb : resp.body with
    | invalid => simp [membership_response_result, hcb, hb]
    | dict m => simp [membership_response_result, hcb, hb]
    | nonDict => exact absurd hb (hbody hc)

/-- C3 counterexample: a 404 response whose body parses as a JSON list makes
the membership check raise an uncaught AttributeError instead of returning
false — a non-204 status is not always a quiet negative result. -/
theorem github_membership_fault_cex :
    _check_membership_allowed_organizations "https://api.github.com"
        (fun _ => { code := 404, body := .nonDict }) "org-a" "alice"
      = .error .attributeError := by decide

/-- C3 amended: for a well-formed org or org:team entry, the membership check
hits the corresponding membership endpoint and, whenever every non-204
response body either fails to parse as JSON or parses as a JSON dict,
returns true exactly when the response status is 204 (no content) and false
for every other status, raising no error; a non-204 body parsing as non-dict
JSON instead raises an uncaught AttributeError. -/
theorem github_membership_fail_closed (github_api org_team username : String)
    (fetch : String → GHResponse)
    (h : (pySplit ':' org_team).length ≤ 2)
    (hbody : ∀ url, (fetch url).code ≠ 204 →
      (fetch url).body ≠ JsonBody.nonDict) :
    ∃ url, membership_api_url github_api org_team username = some url
      ∧ _check_membership_allowed_organizations github_api fetch org_team
          username = .ok ((fetch url).code == 204) := by
  match hsp : pySplit ':' org_team with
  | [] =>
    refine ⟨github_api ++ "/orgs/" ++ org_team ++ "/members/" ++ username, ?_, ?_⟩
    · simp [membership_api_url, hsp]
    · simp [_check_membership_allowed_organizations, membership_api_url, hsp,
        membership_response_ok _ (hbody _)]
  | [org] =>
    refine ⟨github_api ++ "/orgs/" ++ org_team ++ "/members/" ++ username, ?_, ?_⟩
    · simp [membership_api_url, hsp]
    · simp [_check_membership_allowed_organizations, membership_api_url, hsp,
        membership_response_ok _ (hbody _)]
  | [org, team] =>
    refine ⟨github_api ++ "/orgs/" ++ org ++ "/teams/" ++ team ++ "/members/"
      ++ username, ?_, ?_⟩
    · simp [membership_api_url, hsp]
    · simp [_check_membership_allowed_organizations, membership_api_url, hsp,
        membership_response_ok _ (hbody _)]
  | a :: b :: c :: rest =>
    rw [hsp] at h
    simp at h

/-- C3 witness: a team-scoped entry with a 404 response carrying the usual
Not Found JSON object is a negative membership result, not an error. -/
theorem github_membership_fail_closed_witness :
    ∃ url, membership_api_url "https://api.github.com" "org-b:team-1" "alice"
        = some url
      ∧ _check_membership_allowed_organizations "https://api.github.com"
          (fun _ => { code := 404, body := .dict (some "Not Found") })
          "org-b:team-1" "alice"
        = .ok (((fun (_ : String) =>
            ({ code := 404, body := .dict (some "Not Found") } : GHResponse))
              url).code == 204) :=
  github_membership_fail_closed "https://api.github.com" "org-b:team-1"
    "alice" (fun _ => { code := 404, body := .dict (some "Not Found") })
    (by decide) (by intro u hu; simp)

/-- Helper: scanning a list whose entries all fail membership visits every
entry and denies. -/
theorem scan_orgs_all_false (member : String → Bool) (l : List String)
    (h : ∀ o ∈ l, member o = false) :
    scan_orgs member l = (false, l.length) := by
  induction l with
  | nil => rfl
  | cons o rest ih =>
    have ho : member o = false := h o (by simp)
    simp [scan_orgs, ho, ih (fun x hx => h x (by simp [hx]))]

/-- C4: when the base decision denies, the organization entries are scanned
and the first successful membership check allows the login after exactly the
checks before and including it (none afterwards); when every check fails the
decision stays deny after checking each entry once. -/
theorem github_org_shortcircuit (member : String → Bool)
    (orgs pre post : List String) (m : String)
    (hsplit : orgs = pre ++ m :: post)
    (hpre : ∀ o ∈ pre, member o = false)
    (hm : member m = true) :
    github_check_allowed false orgs member = (true, pre.length + 1)
  ∧ (∀ orgs2 : List String, (∀ o ∈ orgs2, member o = false) →
      github_check_allowed false orgs2 member = (false, orgs2.length)) := by
  constructor
  · subst hsplit
    simp only [github_check_allowed, Bool.false_eq_true, if_false]
    induction pre with
    | nil => simp [scan_orgs, hm]
    | cons o rest ih =>
      have ho : member o = false := hpre o (by simp)
      have := ih (fun x hx => hpre x (by simp [hx]))
      simp [scan_orgs, ho, this]
      try omega
  · intro orgs2 h2
    simp [github_check_allowed, scan_orgs_all_false member orgs2 h2]

/-- C4 witness: with entries org-a then org-b:team-x and org-a a member, the
decision is allow after a single membership check; scanning only the
non-member entry denies after its single check. -/
theorem github_org_shortcircuit_witness :
    github_check_allowed false ["org-a", "org-b:team-x"]
        (fun o => o == "org-a") = (true, 1)
  ∧ github_check_allowed false ["org-b:team-x"]
        (fun o => o == "org-a") = (false, 1) := by
  constructor
  · exact (github_org_shortcircuit (fun o => o == "org-a")
      ["org-a", "org-b:team-x"] [] ["org-b:team-x"] "org-a" rfl
      (by intro o ho; cases ho) (by decide)).1
  · exact (github_org_shortcircuit (fun o => o == "org-a")
      ["org-a", "org-b:team-x"] [] ["org-b:team-x"] "org-a" rfl
      (by intro o ho; cases ho) (by decide)).2 ["org-b:team-x"]
      (by decide)

/-- C5: over any finite chain of N pages linked by rel-next links (with the
last page carrying none), the paginated fetch returns the concatenation of
the page bodies in page order while issuing exactly N requests, and it stops
on the first response without a next link. -/
theorem github_pagination_aggregation {α : Type}
    (fetch : String → PageResponse α) (url : String) (pages : List (List α))
    (hchain : PageChain fetch url pages) :
    (∀ fuel, pages.length ≤ fuel →
      _paginated_fetch fetch fuel url = (pages.flatten, pages.length))
  ∧ (∀ u fuel, nextPageUrl (fetch u) = none →
      _paginated_fetch fetch (fuel + 1) u = ((fetch u).body, 1)) := by
  constructor
  · induction hchain with
    | last u hnone =>
      intro fuel hfuel
      cases fuel with
      | zero => simp at hfuel
      | succ n => simp [_paginated_fetch, hnone, List.flatten]
    | step u next rest hnext hsub ih =>
      intro fuel hfuel
      cases fuel with
      | zero => simp at hfuel
      | succ n =>
        have hlen : rest.length ≤ n := by simpa using hfuel
        simp [_paginated_fetch, hnext, ih n hlen, List.flatten]
  · intro u fuel hnone
    simp [_paginated_fetch, hnone]

/-- Concrete two-page fetch used by witnesses: page p1 links to page p2,
which is last. -/
def fetchW : String → PageResponse Nat :=
  fun url =>
    if url == "p1" then
      { body := [1, 2], linkHeader := some [{ rel := some "next", url := "p2" }] }
    else if url == "p2" then
      { body := [3], linkHeader := none }
    else
      { body := [], linkHeader := none }

/-- C5 witness: two chained pages of sizes 2 and 1 aggregate to three items
in order over exactly two requests. -/
theorem github_pagination_aggregation_witness :
    _paginated_fetch fetchW 2 "p1" = ([1, 2, 3], 2) := by
  have hc : PageChain fetchW "p1" [[1, 2], [3]] :=
    PageChain.step "p1" "p2" [[3]] (by decide) (PageChain.last "p2" (by decide))
  exact (github_pagination_aggregation fetchW "p1" [[1, 2], [3]] hc).1 2
    (by decide)

/-- Helper: a character list without a colon never splits at a colon. -/
theorem splitAtColon_none (l : List Char) (h : ∀ c ∈ l, c ≠ ':') :
    splitAtColon l = none := by
  induction l with
  | nil => rfl
  | cons c rest ih =>
    have hc : (c == ':') = false := by simpa using h c (by simp)
    simp [splitAtColon, hc, ih (fun x hx => h x (by simp [hx]))]

/-- Helper: with schema-valid entries, the validation loop passes exactly
when every key's URI scheme is accepted. -/
theorem validate_idps_loop_none_iff (idps : List (String × IdpEntry))
    (hschema : ∀ p ∈ idps, schema_valid p.2.username_derivation = true) :
    validate_idps_loop idps = none ↔
      ∀ p ∈ idps,
        accepted_entity_id_scheme.contains (urlparse_scheme p.1) = true := by
  induction idps with
  | nil => simp [validate_idps_loop]
  | cons hd tl ih =>
    obtain ⟨eid, entry⟩ := hd
    have hs : schema_valid entry.username_derivation = true :=
      hschema ⟨eid, entry⟩ (by simp)
    by_cases hc : accepted_entity_id_scheme.contains (urlparse_scheme eid) = true
    · have hcm : urlparse_scheme eid ∈ accepted_entity_id_scheme := by simpa using hc
      have hrest := ih (fun p hp => hschema p (by simp [hp]))
      constructor
      · intro h
        rw [validate_idps_loop, if_neg (by simp [hs]), if_neg (by simp [hcm])] at h
        intro p hp
        rcases (by simpa using hp : p = (eid, entry) ∨ p ∈ tl) with h1 | h1
        · rw [h1]; exact hc
        · exact hrest.mp h p h1
      · intro hall
        rw [validate_idps_loop, if_neg (by simp [hs]), if_neg (by simp [hcm])]
        exact hrest.mpr (fun p hp => hall p (by simp [hp]))
    · have hcm : urlparse_scheme eid ∉ accepted_entity_id_scheme := by
        simpa using hc
      constructor
      · intro h
        rw [validate_idps_loop, if_neg (by simp [hs]), if_pos (by simp [hcm])] at h
        cases h
      · intro hall
        exact absurd (hall ⟨eid, entry⟩ (by simp)) (by simp [hcm])

/-- C8: with schema-valid entries, validation accepts the proposed
allowed_idps table exactly when every key parses as a URI with scheme urn,
https or http; a single key with another scheme makes validation raise,
rejecting the whole table; and a bare domain name (no colon) parses with an
empty scheme. -/
theorem cilogon_validate_idps_scheme (idps : List (String × IdpEntry))
    (hschema : ∀ p ∈ idps, schema_valid p.2.username_derivation = true) :
    (_validate_allowed_idps idps = .ok idps ↔
      ∀ p ∈ idps,
        accepted_entity_id_scheme.contains (urlparse_scheme p.1) = true)
  ∧ ((∃ p ∈ idps,
        accepted_entity_id_scheme.contains (urlparse_scheme p.1) = false) →
      ∃ msg, _validate_allowed_idps idps = .error msg)
  ∧ (∀ s : String, (∀ c ∈ s.data, c ≠ ':') → urlparse_scheme s = "") := by
  have hiff := validate_idps_loop_none_iff idps hschema
  refine ⟨?_, ?_, ?_⟩
  · constructor
    · intro h
      apply hiff.mp
      cases hl : validate_idps_loop idps with
      | none => rfl
      | some msg => simp [_validate_allowed_idps, hl] at h
    · intro hall
      have hl := hiff.mpr hall
      simp [_validate_allowed_idps, hl]
  · rintro ⟨p, hp, hpf⟩
    cases hl : validate_idps_loop idps with
    | some msg => exact ⟨msg, by simp [_validate_allowed_idps, hl]⟩
    | none =>
      have hmem := hiff.mp hl p hp
      rw [hpf] at hmem
      cases hmem
  · intro s hs
    simp [urlparse_scheme, splitAtColon_none s.data hs]

/-- C8 witness: a table keyed by an https entity id is accepted; a table
keyed by the bare domain github.com is rejected, github.com parsing with an
empty scheme. -/
theorem cilogon_validate_idps_scheme_witness :
    _validate_allowed_idps [("https://idp.example/shibboleth", entW)]
        = .ok [("https://idp.example/shibboleth", entW)]
  ∧ (∃ msg, _validate_allowed_idps [("github.com", entW)] = .error msg)
  ∧ urlparse_scheme "github.com" = "" := by
  refine ⟨?_, ?_, ?_⟩
  · exact (cilogon_validate_idps_scheme
      [("https://idp.example/shibboleth", entW)] (by decide)).1.mpr (by decide)
  · exact (cilogon_validate_idps_scheme [("github.com", entW)] (by decide)).2.1
      ⟨("github.com", entW), by simp, by decide⟩
  · exact (cilogon_validate_idps_scheme [("github.com", entW)] (by decide)).2.2
      "github.com" (by decide)

/-- Helper: once the idp claim is present, the final claim-list computation
cannot raise. -/
theorem get_final_ok_of_idp (cfg : CILogonConfig) (ui : UserInfo)
    (idp : String) (hidp : uget ui "idp" = some idp) :
    ∃ claims, _get_final_username_claim_list cfg ui = .ok claims := by
  cases hie : cfg.allowed_idps.isEmpty with
  | true =>
    exact ⟨cfg.username_claim :: cfg.additional_username_claims,
      by simp [_get_final_username_claim_list, hie]⟩
  | false =>
    cases hl : idpLookup cfg.allowed_idps idp with
    | some e =>
      exact ⟨[e.username_derivation.username_claim],
        by simp [_get_final_username_claim_list, hie, hidp, hl]⟩
    | none =>
      exact ⟨cfg.username_claim :: cfg.additional_username_claims,
        by simp [_get_final_username_claim_list, hie, hidp, hl]⟩

/-- Concrete auth model whose email claim carries no at-sign, exhibiting the
IndexError of the allowed_domains check. -/
def amNoAt : AuthModel :=
  { admin := false,
    user_info := [("idp", "https://idp.example/shibboleth"),
                  ("email", "bob")] }

/-- Concrete auth model lacking the idp claim, exhibiting the KeyError of
check_allowed with allowed_idps configured. -/
def amNoIdp : AuthModel :=
  { admin := false, user_info := [("email", "x@uni.edu")] }

/-- C6 counterexample: with allowed_idps and allowed_domains configured,
check_allowed propagates an unhandled IndexError when the recomputed username
has no at-sign, and an unhandled KeyError when the claims lack idp — neither
is one of the three decision outcomes the claim promises. -/
theorem cilogon_check_allowed_fault_cex :
    check_allowed cfgA "bob" (some amNoAt) = .error .indexError
  ∧ isDecisionOutcome (check_allowed cfgA "bob" (some amNoAt)) = false
  ∧ check_allowed cfgA "carol" (some amNoIdp) = .error (.keyError "idp")
  ∧ isDecisionOutcome (check_allowed cfgA "carol" (some amNoIdp)) = false := by
  decide

/-- C6 amended: provided the claims carry the idp key whenever allowed_idps
is configured, and the recomputed pre-transformation username is present and
contains an at-sign whenever claim resolution succeeds, check_allowed always
resolves to one of the three decision outcomes and propagates no unhandled
fault. -/
theorem cilogon_check_allowed_resolves (cfg : CILogonConfig)
    (username : String) (auth_model : Option AuthModel)
    (hidp : ∀ am, auth_model = some am → cfg.allowed_idps ≠ [] →
      ∃ idp, uget am.user_info "idp" = some idp)
    (hdom : ∀ am claims uwd, auth_model = some am →
      _get_final_username_claim_list cfg am.user_info = .ok claims →
      _get_username_from_claim_list am.user_info claims = some uwd →
      ∃ dom, afterFirstAt uwd = some dom)
    (hres : ∀ am claims, auth_model = some am →
      _get_final_username_claim_list cfg am.user_info = .ok claims →
      _get_username_from_claim_list am.user_info claims ≠ none) :
    isDecisionOutcome (check_allowed cfg username auth_model) = true := by
  cases auth_model with
  | none => rfl
  | some am =>
    by_cases hadm : am.admin = true
    · simp [check_allowed, hadm, isDecisionOutcome]
    · have hadm' : am.admin = false := by simpa using hadm
      by_cases hidps : cfg.allowed_idps = []
      · have hie : cfg.allowed_idps.isEmpty = true := by simp [hidps]
        simp only [check_allowed, hadm', hie, Bool.not_true, Bool.false_eq_true,
          if_false]
        split
        · split <;> rfl
        · rfl
      · obtain ⟨idp, hidpv⟩ := hidp am rfl hidps
        have hne : cfg.allowed_idps.isEmpty = false := by
          cases hcase : cfg.allowed_idps with
          | nil => exact absurd hcase hidps
          | cons _ _ => rfl
        cases hl : idpLookup cfg.allowed_idps idp with
        | none =>
          simp [check_allowed, hadm', hne, hidpv, hl, isDecisionOutcome]
        | some entry =>
          obtain ⟨claims, hclaims⟩ := get_final_ok_of_idp cfg am.user_info idp hidpv
          have hresv := hres am claims rfl hclaims
          cases hr : _get_username_from_claim_list am.user_info claims with
          | none => exact absurd hr hresv
          | some uwd =>
            obtain ⟨dom, hafter⟩ := hdom am claims uwd rfl hclaims hr
            simp only [check_allowed, hadm', hne, hidpv, hl, hclaims, hr, hafter,
              Bool.not_false, Bool.false_eq_true, if_false, if_true]
            split
            · split
              · rfl
              · split
                · split <;> rfl
                · rfl
            · rfl

/-- C6 witness for the amended claim: a well-formed login with domain
x at uni.edu resolves to a decision outcome. -/
theorem cilogon_check_allowed_resolves_witness :
    isDecisionOutcome (check_allowed cfgA "bob" (some amS)) = true := by
  apply cilogon_check_allowed_resolves
  · intro am ham hne
    cases ham
    exact ⟨"https://idp.example/shibboleth", by decide⟩
  · intro am claims uwd ham h1 h2
    cases ham
    have e1 : _get_final_username_claim_list cfgA amS.user_info
        = .ok ["email"] := by decide
    rw [e1] at h1
    injection h1 with h1e
    subst h1e
    have e2 : _get_username_from_claim_list amS.user_info ["email"]
        = some "x@uni.edu" := by decide
    rw [e2] at h2
    injection h2 with h2e
    subst h2e
    exact ⟨"uni.edu", by decide⟩
  · intro am claims ham h1
    cases ham
    have e1 : _get_final_username_claim_list cfgA amS.user_info
        = .ok ["email"] := by decide
    rw [e1] at h1
    injection h1 with h1e
    subst h1e
    decide
